import Mathlib

set_option linter.unusedVariables false

/-!
Verification development for the Full Tilt Poker hand-history parser
(`handparser/ftp.py`).  The Python source is shallowly embedded: each
method of `FullTiltHand` becomes an executable Lean function over the
split hand text, Python exceptions become an explicit error type, and the
regular expressions of the source are compiled by hand into backtracking
matchers with Python's greedy/lazy candidate order.
-/

/-- Python exceptions that the parser can raise.  `decimal.InvalidOperation`
is not a `ValueError`, so it is kept separate (it is not caught by the
`except ValueError` in `_parse_street`). -/
inductive PyErr where
  | valueError
  | attributeError
  | indexError
  | keyError
  | unboundLocal
  | invalidOperation
deriving DecidableEq, Repr

/-- Class of characters matched by the regex `.` (any character except a
newline; none of the patterns use `re.DOTALL`). -/
def isDot (c : Char) : Bool := c ≠ '\n'

/-- Match a literal list of pattern characters at the head of the input,
returning the rest of the input on success. -/
def litP : List Char → List Char → Option (List Char)
  | [], cs => some cs
  | p :: ps, c :: cs => if c = p then litP ps cs else none
  | _ :: _, [] => none

/-- Candidate splits for a greedy star `X*` over the character class `p`:
all ways to cut off a `p`-only prefix, longest first — exactly the order in
which Python's backtracking regex engine tries them. -/
def starCands (p : Char → Bool) (cs : List Char) : List (List Char × List Char) :=
  let m := (cs.takeWhile p).length
  ((List.range (m + 1)).reverse).map (fun i => (cs.take i, cs.drop i))

/-- Candidate splits for a lazy star `X*?`: shortest first. -/
def lazyCands (p : Char → Bool) (cs : List Char) : List (List Char × List Char) :=
  let m := (cs.takeWhile p).length
  (List.range (m + 1)).map (fun i => (cs.take i, cs.drop i))

/-- Python's `$` without `re.MULTILINE`: matches at the end of the string or
just before a single trailing newline. -/
def pyDollar (r : List Char) : Bool := r = [] || r = ['\n']

/-- Numeric value of a digit character. -/
def dVal (c : Char) : Nat := c.toNat - 48

/-- Numeric value of a list of digit characters (base 10). -/
def digitsVal (cs : List Char) : Nat := cs.foldl (fun a c => 10 * a + dVal c) 0

/-- Model of the CPython `str.upper` restricted to ASCII, used for
`street.upper()` on the street names `"flop"`, `"turn"`, `"river"`. -/
def charUp (c : Char) : Char :=
  if 'a' ≤ c ∧ c ≤ 'z' then Char.ofNat (c.toNat - 32) else c

/-- See `charUp`. -/
def pyUpper (s : String) : String := String.mk (s.data.map charUp)

/-- Exact value of a Python `decimal.Decimal`: coefficient and (base-10)
exponent, mirroring the representation `Decimal` itself uses.
`Decimal("10")` is `⟨10, 0⟩`. -/
structure PyDec where
  coeff : Int
  exp : Int
deriving DecidableEq, Repr

/-- Rational value denoted by a `PyDec` — decimals are exact, never a binary
floating-point approximation. -/
def PyDec.val (d : PyDec) : ℚ := (d.coeff : ℚ) * (10 : ℚ) ^ (d.exp : ℤ)

/-- Model of `decimal.Decimal(str)` for finite numeric strings (ftp.py uses
it on the blind fields and the pot field): optional sign, digits with an
optional fraction part, optional exponent.  Returns `none` where `Decimal`
raises `InvalidOperation` (e.g. the empty string).  The special values
`NaN`/`Infinity`, which no claim touches, are outside the model. -/
def pyDecimal (s : String) : Option PyDec :=
  let cs := s.data.dropWhile (fun c => c = ' ') |>.reverse.dropWhile (fun c => c = ' ') |>.reverse
  let (sgn, cs1) : Int × List Char :=
    match cs with
    | '-' :: r => (-1, r)
    | '+' :: r => (1, r)
    | r => (1, r)
  let intPart := cs1.takeWhile Char.isDigit
  let rest1 := cs1.drop intPart.length
  let (fracPart, rest2) : List Char × List Char :=
    match rest1 with
    | '.' :: r => (r.takeWhile Char.isDigit, r.drop (r.takeWhile Char.isDigit).length)
    | r => ([], r)
  if intPart.isEmpty ∧ fracPart.isEmpty then none
  else
    let coeff : Int := sgn * (digitsVal (intPart ++ fracPart) : Int)
    match rest2 with
    | [] => some ⟨coeff, -(fracPart.length : Int)⟩
    | e :: r =>
      if e = 'e' ∨ e = 'E' then
        let (esgn, r1) : Int × List Char :=
          match r with
          | '-' :: r2 => (-1, r2)
          | '+' :: r2 => (1, r2)
          | r2 => (1, r2)
        let eDigits := r1.takeWhile Char.isDigit
        if eDigits.isEmpty ∨ ¬(r1.drop eDigits.length).isEmpty then none
        else some ⟨coeff, esgn * (digitsVal eDigits : Int) - (fracPart.length : Int)⟩
      else none

/-- Model of Python's `int(s)` applied to `match.group(3).replace(',', '')`
in `_parse_seats`: strips the digit-grouping commas, fails (ValueError) on
an empty result. -/
def stackVal (s : String) : Option Int :=
  let ds := s.data.filter (fun c => c ≠ ',')
  if ds.isEmpty ∨ ¬ds.all Char.isDigit then none else some (digitsVal ds : Int)

/-- Python `list.index(x)`: index of the first occurrence, `none` where
Python raises ValueError. -/
def pyListIndex : List String → String → Option Nat
  | [], _ => none
  | a :: l, x => if a = x then some 0 else (pyListIndex l x).map (· + 1)

/-- Python `list.index(x, start)`: first occurrence at position `≥ start`. -/
def pyIndexFrom (l : List String) (x : String) (start : Nat) : Option Nat :=
  (pyListIndex (l.drop start) x).map (· + start)

/-- Python list subscription `l[i]` with negative-index support;
`.error .indexError` where Python raises IndexError. -/
def pyIdx {α : Type} (l : List α) (i : Int) : Except PyErr α :=
  let j : Int := if i < 0 then i + (l.length : Int) else i
  if j < 0 then .error .indexError
  else
    match l.get? j.toNat with
    | some a => .ok a
    | none => .error .indexError

/-- Python list item assignment `l[i] = a` with negative-index support. -/
def pySet {α : Type} (l : List α) (i : Int) (a : α) : Except PyErr (List α) :=
  let j : Int := if i < 0 then i + (l.length : Int) else i
  if j < 0 ∨ (l.length : Int) ≤ j then .error .indexError
  else .ok (l.set j.toNat a)

/-- Python slice `l[a:b]` for non-negative bounds (never raises). -/
def pySlice {α : Type} (l : List α) (a b : Nat) : List α := (l.take b).drop a

/-- Lift an optional value into `Except`, tagging the Python exception that
a `None`/missing value turns into at the corresponding source line. -/
def ofOption {α : Type} (e : PyErr) : Option α → Except PyErr α
  | none => .error e
  | some a => .ok a

/-- Model of `_seat_pattern = r"^Seat (\d): (.*) \(([\d,]*)\)$"` applied via
`.match` (anchored at the start; `$` per `pyDollar`).  Returns the seat
digit, the player name and the raw stack string. -/
def seatMatch (s : String) : Option (Nat × String × String) :=
  (litP "Seat ".data s.data).bind fun r1 =>
  match r1 with
  | c :: r2 =>
    if c.isDigit then
      (litP ": ".data r2).bind fun r3 =>
      (starCands isDot r3).findSome? fun (name, r4) =>
      (litP " (".data r4).bind fun r5 =>
      (starCands (fun c => c.isDigit || c = ',') r5).findSome? fun (stk, r6) =>
      (litP ")".data r6).bind fun r7 =>
      if pyDollar r7 then some (dVal c, String.mk name, String.mk stk) else none
    else none
  | [] => none

/-- Model of `_button_pattern = r"^The button is in seat #(\d)$"`. -/
def buttonMatch (s : String) : Option Nat :=
  (litP "The button is in seat #".data s.data).bind fun r1 =>
  match r1 with
  | c :: r2 => if c.isDigit ∧ pyDollar r2 then some (dVal c) else none
  | [] => none

/-- Model of `_hole_cards_pattern = r"^Dealt to (.*) \[(..) (..)\]$"`. -/
def holeMatch (s : String) : Option (String × String × String) :=
  (litP "Dealt to ".data s.data).bind fun r1 =>
  (starCands isDot r1).findSome? fun (name, r2) =>
  (litP " [".data r2).bind fun r3 =>
  match r3 with
  | a :: b :: ' ' :: c :: d :: r4 =>
    if isDot a && isDot b && isDot c && isDot d && pyDollar (litRest r4) then
      some (String.mk name, String.mk [a, b], String.mk [c, d])
    else none
  | _ => none
where
  litRest (r4 : List Char) : List Char :=
    match r4 with
    | ']' :: r5 => r5
    | _ => ['\n', '\n']

/-- Model of `_street_pattern = r"\[(.*)\] \(Total Pot: (\d*)\, (\d) Players"`
applied via `.match`: anchored at the start, unanchored at the end.
Returns the raw cards string, the raw pot string and the player digit. -/
def streetMatch (s : String) : Option (String × String × Nat) :=
  (litP "[".data s.data).bind fun r1 =>
  (starCands isDot r1).findSome? fun (cards, r2) =>
  (litP "] (Total Pot: ".data r2).bind fun r3 =>
  (starCands Char.isDigit r3).findSome? fun (pot, r4) =>
  (litP ", ".data r4).bind fun r5 =>
  match r5 with
  | c :: r6 =>
    if c.isDigit then
      (litP " Players".data r6).bind fun _r7 =>
      some (String.mk cards, String.mk pot, dVal c)
    else none
  | [] => none

/-- The capture groups of `_header_pattern` (ftp.py lines 36-47). -/
structure HeaderGroups where
  ident : String
  tournament_name : String
  tournament_ident : String
  table_name : String
  limit : String
  game : String
  sb : String
  bb : String
  date : String
deriving DecidableEq, Repr

/-- Model of `_header_pattern` (verbose-mode whitespace removed):
`^Full Tilt Poker Game #(?P<ident>\d*): (?P<tournament_name>.*)
\((?P<tournament_ident>\d*)\), Table (?P<table_name>\d*) - (?P<limit>NL)
(?P<game>.*) - (?P<sb>.*)/(?P<bb>.*?) - .* \[(?P<date>.*)\]$`,
with Python's backtracking order (greedy stars longest first, the lazy
`bb` shortest first).  The `limit` group is the literal `NL`, so its
capture is always the string `"NL"`. -/
def headerMatch (s : String) : Option HeaderGroups :=
  (litP "Full Tilt Poker Game #".data s.data).bind fun r1 =>
  (starCands Char.isDigit r1).findSome? fun (ident, r2) =>
  (litP ": ".data r2).bind fun r3 =>
  (starCands isDot r3).findSome? fun (tname, r4) =>
  (litP " (".data r4).bind fun r5 =>
  (starCands Char.isDigit r5).findSome? fun (tid, r6) =>
  (litP "), Table ".data r6).bind fun r7 =>
  (starCands Char.isDigit r7).findSome? fun (tbl, r8) =>
  (litP " - NL ".data r8).bind fun r9 =>
  (starCands isDot r9).findSome? fun (game, r10) =>
  (litP " - ".data r10).bind fun r11 =>
  (starCands isDot r11).findSome? fun (sb, r12) =>
  (litP "/".data r12).bind fun r13 =>
  (lazyCands isDot r13).findSome? fun (bb, r14) =>
  (litP " - ".data r14).bind fun r15 =>
  (starCands isDot r15).findSome? fun (_loc, r16) =>
  (litP " [".data r16).bind fun r17 =>
  (starCands isDot r17).findSome? fun (date, r18) =>
  (litP "]".data r18).bind fun r19 =>
  if pyDollar r19 then
    some ⟨String.mk ident, String.mk tname, String.mk tid, String.mk tbl,
          "NL", String.mk game, String.mk sb, String.mk bb, String.mk date⟩
  else none

/-- Length of the separator match of
`_split_pattern = r" ?\*\*\* ?\n?|\n"` at the head of the input, if any
(alternation tried left to right, the optional pieces greedy). -/
def sepLenAt (cs : List Char) : Option Nat :=
  match cs with
  | ' ' :: '*' :: '*' :: '*' :: rest => some (4 + optTail rest)
  | '*' :: '*' :: '*' :: rest => some (3 + optTail rest)
  | '\n' :: _ => some 1
  | _ => none
where
  /-- Greedy ` ?\n?` after the stars. -/
  optTail : List Char → Nat
    | ' ' :: '\n' :: _ => 2
    | ' ' :: _ => 1
    | '\n' :: _ => 1
    | _ => 0

/-- Worker for `pySplit`; `fuel` bounds the number of steps (each step
consumes at least one character, so `fuel = length` suffices and the
zero-fuel branch is unreachable). -/
def pySplitGo (fuel : Nat) (cs : List Char) (cur : List Char) : List String :=
  match fuel with
  | 0 => [String.mk cur.reverse]
  | fuel + 1 =>
    match cs with
    | [] => [String.mk cur.reverse]
    | c :: rest =>
      match sepLenAt (c :: rest) with
      | some L => String.mk cur.reverse :: pySplitGo fuel ((c :: rest).drop L) []
      | none => pySplitGo fuel rest (c :: cur)

/-- Model of `re.split(_split_pattern, raw)` (ftp.py line 56): the ordered
fragments between non-overlapping, left-to-right separator matches. -/
def pySplit (s : String) : List String := pySplitGo s.data.length s.data []

/-- Model of ftp.py line 61: indices of the empty fragments (the section
boundaries). -/
def sectionsOf (l : List String) : List Nat :=
  (l.enum.filter (fun p => p.2 = "")).map (fun p => p.1)

/-- Naive (timezone-free) datetime produced by `datetime.strptime`. -/
structure NaiveDT where
  year : Nat
  month : Nat
  day : Nat
  hour : Nat
  minute : Nat
  second : Nat
deriving DecidableEq, Repr

/-- Days in a month of the proleptic Gregorian calendar (as `datetime`
validates). -/
def daysInMonth (y m : Nat) : Nat :=
  if m = 2 then (if y % 4 = 0 ∧ (y % 100 ≠ 0 ∨ y % 400 = 0) then 29 else 28)
  else if m = 4 ∨ m = 6 ∨ m = 9 ∨ m = 11 then 30
  else 31

/-- Days before month `m` in year `y`. -/
def daysBeforeMonth (y m : Nat) : Nat :=
  (List.range (m - 1)).foldl (fun a i => a + daysInMonth y (i + 1)) 0

/-- Days from 0001-01-01 (day 0) to the given Gregorian date. -/
def totalDays (y m d : Nat) : Nat :=
  365 * (y - 1) + (y - 1) / 4 - (y - 1) / 100 + (y - 1) / 400 + daysBeforeMonth y m + (d - 1)

/-- Day of week, Sunday = 0 (1970-01-01, day 719162, was a Thursday). -/
def dayOfWeek (y m d : Nat) : Nat := (totalDays y m d + 1) % 7

/-- Day of month of the first Sunday on or after day `d0` of month `m`. -/
def firstSundayOnOrAfter (y m d0 : Nat) : Nat :=
  d0 + (7 - dayOfWeek y m d0) % 7

/-- Candidate parses for `%H` in CPython's `_strptime`
(`2[0-3]|[0-1]\d|\d`), in alternation order. -/
def hourCands (cs : List Char) : List (Nat × List Char) :=
  (match cs with
   | '2' :: c :: r => if '0' ≤ c ∧ c ≤ '3' then [(20 + dVal c, r)] else []
   | _ => []) ++
  (match cs with
   | a :: c :: r => if (a = '0' ∨ a = '1') ∧ c.isDigit then [(10 * dVal a + dVal c, r)] else []
   | _ => []) ++
  (match cs with
   | c :: r => if c.isDigit then [(dVal c, r)] else []
   | _ => [])

/-- Candidate parses for `%M` (`[0-5]\d|\d`). -/
def minuteCands (cs : List Char) : List (Nat × List Char) :=
  (match cs with
   | a :: c :: r => if '0' ≤ a ∧ a ≤ '5' ∧ c.isDigit then [(10 * dVal a + dVal c, r)] else []
   | _ => []) ++
  (match cs with
   | c :: r => if c.isDigit then [(dVal c, r)] else []
   | _ => [])

/-- Candidate parses for `%S` (`6[0-1]|[0-5]\d|\d`). -/
def secondCands (cs : List Char) : List (Nat × List Char) :=
  (match cs with
   | '6' :: c :: r => if c = '0' ∨ c = '1' then [(60 + dVal c, r)] else []
   | _ => []) ++
  (match cs with
   | a :: c :: r => if '0' ≤ a ∧ a ≤ '5' ∧ c.isDigit then [(10 * dVal a + dVal c, r)] else []
   | _ => []) ++
  (match cs with
   | c :: r => if c.isDigit then [(dVal c, r)] else []
   | _ => [])

/-- Parse for `%Y` (`\d\d\d\d`, exactly four digits). -/
def yearCand (cs : List Char) : Option (Nat × List Char) :=
  match cs with
  | a :: b :: c :: d :: r =>
    if a.isDigit ∧ b.isDigit ∧ c.isDigit ∧ d.isDigit then
      some (digitsVal [a, b, c, d], r)
    else none
  | _ => none

/-- Candidate parses for `%m` (`1[0-2]|0[1-9]|[1-9]`). -/
def monthCands (cs : List Char) : List (Nat × List Char) :=
  (match cs with
   | '1' :: c :: r => if '0' ≤ c ∧ c ≤ '2' then [(10 + dVal c, r)] else []
   | _ => []) ++
  (match cs with
   | '0' :: c :: r => if '1' ≤ c ∧ c ≤ '9' then [(dVal c, r)] else []
   | _ => []) ++
  (match cs with
   | c :: r => if '1' ≤ c ∧ c ≤ '9' then [(dVal c, r)] else []
   | _ => [])

/-- Candidate parses for `%d` (`3[01]|[12]\d|0[1-9]|[1-9]`). -/
def dayCands (cs : List Char) : List (Nat × List Char) :=
  (match cs with
   | '3' :: c :: r => if c = '0' ∨ c = '1' then [(30 + dVal c, r)] else []
   | _ => []) ++
  (match cs with
   | a :: c :: r => if (a = '1' ∨ a = '2') ∧ c.isDigit then [(10 * dVal a + dVal c, r)] else []
   | _ => []) ++
  (match cs with
   | '0' :: c :: r => if '1' ≤ c ∧ c ≤ '9' then [(dVal c, r)] else []
   | _ => []) ++
  (match cs with
   | c :: r => if '1' ≤ c ∧ c ≤ '9' then [(dVal c, r)] else []
   | _ => [])

/-- Model of `datetime.strptime(s, '%H:%M:%S ET - %Y/%m/%d')`
(`date_format`, ftp.py line 33): field alternations as in CPython's
`_strptime`, full consumption required, then the `datetime` constructor's
range validation (year ≥ 1, second ≤ 59, day within the month). -/
def strptimeFTP (s : String) : Option NaiveDT :=
  (hourCands s.data).findSome? fun (hh, r1) =>
  (litP ":".data r1).bind fun r2 =>
  (minuteCands r2).findSome? fun (mi, r3) =>
  (litP ":".data r3).bind fun r4 =>
  (secondCands r4).findSome? fun (ss, r5) =>
  (litP " ET - ".data r5).bind fun r6 =>
  (yearCand r6).bind fun (yy, r7) =>
  (litP "/".data r7).bind fun r8 =>
  (monthCands r8).findSome? fun (mm, r9) =>
  (litP "/".data r9).bind fun r10 =>
  (dayCands r10).findSome? fun (dd, r11) =>
  if r11 = [] then
    if 1 ≤ yy ∧ ss ≤ 59 ∧ dd ≤ daysInMonth yy mm then some ⟨yy, mm, dd, hh, mi, ss⟩
    else none
  else none

/-- Modelled from the spec: `ET` in `handparser/common.py` is not under
`src/`; per the spec it is the room's fixed home timezone (US Eastern),
and the header timestamp is attached to it and converted to UTC exactly.
This models the post-2007 US Eastern rule: EST is UTC-5, EDT is UTC-4,
daylight time runs from 02:00 on the second Sunday of March to 02:00 on
the first Sunday of November, with ambiguous or non-existent wall times
resolved to standard time (pytz `is_dst=False` behaviour). -/
def isEDT (dt : NaiveDT) : Bool :=
  if 4 ≤ dt.month ∧ dt.month ≤ 10 then true
  else if dt.month = 3 then
    let ssd := firstSundayOnOrAfter dt.year 3 8
    dt.day > ssd ∨ (dt.day = ssd ∧ 3 ≤ dt.hour)
  else if dt.month = 11 then
    let fsd := firstSundayOnOrAfter dt.year 11 1
    dt.day < fsd ∨ (dt.day = fsd ∧ dt.hour < 1)
  else false

/-- UTC offset of the ET timezone at the given wall time, in seconds
(negative: ET is behind UTC). -/
def etOffsetSecs (dt : NaiveDT) : Int := if isEDT dt then -14400 else -18000

/-- Seconds from the Unix epoch to a naive datetime read as UTC
(1970-01-01 is day 719162 of `totalDays`). -/
def naiveEpochSecs (dt : NaiveDT) : Int :=
  ((totalDays dt.year dt.month dt.day : Int) - 719162) * 86400
    + (dt.hour : Int) * 3600 + (dt.minute : Int) * 60 + (dt.second : Int)

/-- Model of ftp.py lines 71-72:
`date = ET.localize(datetime.strptime(..., self.date_format))` followed by
`self.date = date.astimezone(UTC)`.  The result is the exact UTC instant as
seconds since the Unix epoch; `none` where `strptime` raises ValueError. -/
def dateToUTC (s : String) : Option Int :=
  (strptimeFTP s).map fun dt => naiveEpochSecs dt - etOffsetSecs dt

/-- Modelled from the spec: the `GAMES` variant-name table lives in
`handparser/common.py`, which is not under `src/`; per the spec it is a
fixed variant-name table mapping the header's game string to a canonical
variant code, with unknown names rejected (a KeyError, distinct from a
header-shape mismatch). -/
def GAMES : List (String × String) :=
  [("Hold\x27em", "HOLDEM"), ("Omaha Hi", "OMAHA"), ("Razz", "RAZZ"), ("Stud Hi", "STUD")]

/-- Python `GAMES[key]` (ftp.py line 73): `none` where Python raises
KeyError. -/
def gamesLookup (g : String) : Option String :=
  (GAMES.find? (fun p => p.1 = g)).map (fun p => p.2)

/-- Fields populated by `parse_header` (ftp.py lines 66-82). -/
structure HeaderData where
  sb : PyDec
  bb : PyDec
  date : Int
  game : String
  limit : String
  ident : String
  tournament_ident : String
  tournament_name : String
  table_name : String
  game_type : String
  tournament_level : Option Int
  buyin : Option PyDec
  rake : Option PyDec
  currency : Option String
deriving DecidableEq, Repr

/-- Model of `FullTiltHand.parse_header` (ftp.py lines 66-82) applied to
`self._splitted[0]`.  A failed header match makes `match.group(...)` raise
AttributeError; `Decimal` can raise InvalidOperation, `strptime`
ValueError, and the `GAMES` lookup KeyError, in source order.  The `host`
argument models the host system's local timezone (as a UTC offset); the
code never consults it.  Line 80 sets `tournament_level`, `buyin`, `rake`
and `currency` to `None`. -/
def parseHeader (host : Int) (seg0 : String) : Except PyErr HeaderData := do
  let g ← ofOption .attributeError (headerMatch seg0)
  let sb ← ofOption .invalidOperation (pyDecimal g.sb)
  let bb ← ofOption .invalidOperation (pyDecimal g.bb)
  let date ← ofOption .valueError (dateToUTC g.date)
  let game ← ofOption .keyError (gamesLookup g.game)
  .ok ⟨sb, bb, date, game, g.limit, g.ident, g.tournament_ident,
       g.tournament_name, g.table_name, "TOUR", none, none, none, none⟩

/-- The nine-slot players list `[('Empty Seat %s' % num, 0) for num in
range(1, 10)]` (ftp.py line 96), written out. -/
def initPlayers : List (String × Int) :=
  [("Empty Seat 1", 0), ("Empty Seat 2", 0), ("Empty Seat 3", 0),
   ("Empty Seat 4", 0), ("Empty Seat 5", 0), ("Empty Seat 6", 0),
   ("Empty Seat 7", 0), ("Empty Seat 8", 0), ("Empty Seat 9", 0)]

/-- Model of the seat loop of `_parse_seats` (ftp.py lines 97-104): walk the
fragments after the header, stop at the first line that does not match the
seat pattern, and assign `players[seat_number - 1]`.  The second component
is the Python local variable `seat_number`: `none` while it has never been
assigned. -/
def seatsLoop : List String → List (String × Int) → Option Nat →
    Except PyErr (List (String × Int) × Option Nat)
  | [], ps, sn => .ok (ps, sn)
  | line :: rest, ps, sn =>
    match seatMatch line with
    | none => .ok (ps, sn)
    | some (n, name, stk) =>
      match stackVal stk with
      | none => .error .valueError
      | some v =>
        match pySet ps ((n : Int) - 1) (name, v) with
        | .error e => .error e
        | .ok ps2 => seatsLoop rest ps2 (some n)

/-- Worker for `pyODict`; `fuel` bounds the number of steps (each step
removes at least the head, so `fuel = length` suffices and the zero-fuel
branch is unreachable). -/
def pyODictGo : Nat → List (String × Int) → List (String × Int)
  | _, [] => []
  | 0, l => l
  | fuel + 1, p :: ps =>
    (p.1, (ps.filter (fun q => q.1 = p.1)).foldl (fun _ q => q.2) p.2)
      :: pyODictGo fuel (ps.filter (fun q => ¬ q.1 = p.1))

/-- Model of Python's `collections.OrderedDict` built from a pair list:
first-insertion key order, later duplicate keys only update the value. -/
def pyODict (l : List (String × Int)) : List (String × Int) := pyODictGo l.length l

/-- Model of `_parse_seats` (ftp.py lines 94-111): run the seat loop over
`self._splitted[1:]`, read `seat_number` as `max_players` (UnboundLocalError
when the loop never matched), then resolve the button from the line one
before the first section boundary.  Returns (players list, max_players,
button_seat, button name). -/
def parseSeats (splitted : List String) (sections : List Nat) :
    Except PyErr (List (String × Int) × Nat × Nat × String) := do
  let (ps, snOpt) ← seatsLoop (splitted.drop 1) initPlayers none
  let mp ← ofOption .unboundLocal snOpt
  let s0 ← pyIdx sections 0
  let bline ← pyIdx splitted ((s0 : Int) - 1)
  let bseat ← ofOption .attributeError (buttonMatch bline)
  let bp ← pyIdx ps ((bseat : Int) - 1)
  .ok (ps, mp, bseat, bp.1)

/-- Model of `_parse_hole_cards` (ftp.py lines 113-118): the line two
fragments after the first section boundary must match the hole-cards
pattern; the hero's seat is the position of the hero's name in the ordered
seat mapping's key list, plus one (a ValueError when the name is absent).
Returns (hero, hero_seat, hole cards). -/
def parseHoleCards (splitted : List String) (sections : List Nat)
    (ps : List (String × Int)) : Except PyErr (String × Nat × String × String) := do
  let s0 ← pyIdx sections 0
  let hline ← pyIdx splitted ((s0 : Int) + 2)
  let (hero, c1, c2) ← ofOption .attributeError (holeMatch hline)
  let i ← ofOption .valueError (pyListIndex ((pyODict ps).map (fun p => p.1)) hero)
  .ok (hero, i + 1, c1, c2)

/-- Model of `_parse_preflop` (ftp.py lines 120-123): the fixed-offset slice
from three after the first section boundary up to the second boundary. -/
def parsePreflopA (splitted : List String) (sections : List Nat) :
    Except PyErr (List String) := do
  let s0 ← pyIdx sections 0
  let s1 ← pyIdx sections 1
  .ok (pySlice splitted (s0 + 3) s1)

/-- Per-street record: the street's own board cards, the pot before the
street, the number of players who saw it, and its action lines.  A street
not reached has all four fields `none`. -/
structure StreetData where
  cards : Option (List String)
  pot : Option PyDec
  num_players : Option Nat
  actions : Option (List String)
deriving DecidableEq, Repr

/-- Whitespace for Python's argument-free `str.split()` (ASCII part). -/
def isPyWS (c : Char) : Bool :=
  c = ' ' ∨ c = '\t' ∨ c = '\n' ∨ c = '\r' ∨ c = '\x0b' ∨ c = '\x0c'

/-- Worker for `pySplitWS`, carrying the current token reversed. -/
def pySplitWSGo : List Char → List Char → List String
  | [], cur => if cur.isEmpty then [] else [String.mk cur.reverse]
  | c :: rest, cur =>
    if isPyWS c then
      (if cur.isEmpty then [] else [String.mk cur.reverse]) ++ pySplitWSGo rest []
    else pySplitWSGo rest (c :: cur)

/-- Model of Python's argument-free `str.split()` (used on the cards group,
ftp.py line 145): split on runs of whitespace, dropping empty pieces. -/
def pySplitWS (s : String) : List String := pySplitWSGo s.data []

/-- Model of `_parse_street` together with `_parse_boardline` (ftp.py lines
125-151).  `self._splitted.index(street.upper())` raises ValueError when
the marker is absent; that (and only that) is caught and records the street
as fully absent.  A present marker whose following line fails
`_street_pattern` raises AttributeError at `match.group(1)` — an error, not
an absent street.  `Decimal` on the pot group raises InvalidOperation (not
caught by `except ValueError`).  When `self._splitted.index('', start + 1)`
raises ValueError (no boundary after the board line) the handler overwrites
the already-set board fields with `None`.  An empty collected action list
is stored as `None` (`tuple(street_actions) if street_actions else None`). -/
def parseStreet (splitted : List String) (street : String) : Except PyErr StreetData :=
  match pyIndexFrom splitted (pyUpper street) 0 with
  | none => .ok ⟨none, none, none, none⟩
  | some i =>
    let start := i + 1
    match splitted.get? start with
    | none => .error .indexError
    | some bl =>
      match streetMatch bl with
      | none => .error .attributeError
      | some (cards, potS, np) =>
        match pyDecimal potS with
        | none => .error .invalidOperation
        | some pot =>
          match pyIndexFrom splitted "" (start + 1) with
          | none => .ok ⟨none, none, none, none⟩
          | some stop =>
            let acts := pySlice splitted (start + 1) stop
            .ok ⟨some (pySplitWS cards), some pot, some np,
                 if acts.isEmpty then none else some acts⟩

/-- The parsed hand (the attributes `FullTiltHand.parse` populates). -/
structure Hand where
  sb : PyDec
  bb : PyDec
  date : Int
  game : String
  limit : String
  ident : String
  tournament_ident : String
  tournament_name : String
  table_name : String
  game_type : String
  tournament_level : Option Int
  buyin : Option PyDec
  rake : Option PyDec
  currency : Option String
  players : List (String × Int)
  max_players : Nat
  button_seat : Nat
  button : String
  hero : String
  hero_seat : Nat
  hero_hole_cards : String × String
  preflop_actions : List String
  flop : StreetData
  turn : StreetData
  river : StreetData
deriving DecidableEq, Repr

/-- Default `Hand`, only used to name concrete parse results. -/
instance : Inhabited Hand :=
  ⟨⟨⟨0, 0⟩, ⟨0, 0⟩, 0, "", "", "", "", "", "", "", none, none, none, none, [], 0, 0,
    "", "", 0, ("", ""), [], ⟨none, none, none, none⟩, ⟨none, none, none, none⟩,
    ⟨none, none, none, none⟩⟩⟩

/-- Model of `FullTiltHand.parse` (ftp.py lines 84-92) from the raw hand
text: split (line 56), record section boundaries (line 61), then header,
seats, hole cards, preflop and the three streets in order.  Modelled from
the spec where the base class is concerned: `PokerHand.parse` lives in
`handparser/common.py`, which is not under `src/`; per the spec the header
is parsed first and is foundational, and the raw text reaches the parser
unchanged.  The `host` argument models the host system's local timezone;
nothing in the parse consults it. -/
def parseHand (host : Int) (raw : String) : Except PyErr Hand := do
  let splitted := pySplit raw
  let sections := sectionsOf splitted
  let seg0 ← pyIdx splitted 0
  let hd ← parseHeader host seg0
  let (ps, mp, bseat, btn) ← parseSeats splitted sections
  let (hero, hseat, c1, c2) ← parseHoleCards splitted sections ps
  let preflop ← parsePreflopA splitted sections
  let flop ← parseStreet splitted "flop"
  let turn ← parseStreet splitted "turn"
  let river ← parseStreet splitted "river"
  .ok ⟨hd.sb, hd.bb, hd.date, hd.game, hd.limit, hd.ident, hd.tournament_ident,
       hd.tournament_name, hd.table_name, hd.game_type, hd.tournament_level,
       hd.buyin, hd.rake, hd.currency, pyODict ps, mp, bseat, btn, hero, hseat,
       (c1, c2), preflop, flop, turn, river⟩

/-- Decidable equality for `Except` results, so that concrete parses can be
checked by `decide`. -/
instance {ε α : Type} [DecidableEq ε] [DecidableEq α] : DecidableEq (Except ε α) := fun a b =>
  match a, b with
  | .ok x, .ok y =>
    if h : x = y then .isTrue (by rw [h]) else .isFalse (fun he => h (Except.ok.inj he))
  | .error x, .error y =>
    if h : x = y then .isTrue (by rw [h]) else .isFalse (fun he => h (Except.error.inj he))
  | .ok _, .error _ => .isFalse (fun he => Except.noConfusion he)
  | .error _, .ok _ => .isFalse (fun he => Except.noConfusion he)

/-- Inversion for a successful `Except` bind. -/
theorem ebind_ok {α β : Type} {e : Except PyErr α} {f : α → Except PyErr β} {b : β}
    (h : e >>= f = .ok b) : ∃ a, e = .ok a ∧ f a = .ok b := by
  cases e with
  | ok a => exact ⟨a, rfl, h⟩
  | error ε => exact Except.noConfusion h

/-- Inversion for a successful `ofOption`. -/
theorem ofOption_ok {α : Type} {e : PyErr} {o : Option α} {a : α}
    (h : ofOption e o = .ok a) : o = some a := by
  cases o with
  | none => exact Except.noConfusion h
  | some b => simp only [ofOption] at h; injection h with h; rw [h]

/-- A successful `Except.ok` bind reduces. -/
theorem ok_bind {α β : Type} (a : α) (f : α → Except PyErr β) :
    (Except.ok a >>= f : Except PyErr β) = f a := rfl

/-- Every successful header match captures the literal `NL` in the `limit`
group: the pattern `(?P<limit>NL)` can match nothing else. -/
theorem headerMatch_limit {s : String} {g : HeaderGroups}
    (h : headerMatch s = some g) : g.limit = "NL" := by
  unfold headerMatch at h
  obtain ⟨r1, -, h⟩ := Option.bind_eq_some.mp h
  obtain ⟨⟨ident, r2⟩, -, h⟩ := List.exists_of_findSome?_eq_some h
  dsimp only at h
  obtain ⟨r3, -, h⟩ := Option.bind_eq_some.mp h
  obtain ⟨⟨tname, r4⟩, -, h⟩ := List.exists_of_findSome?_eq_some h
  dsimp only at h
  obtain ⟨r5, -, h⟩ := Option.bind_eq_some.mp h
  obtain ⟨⟨tid, r6⟩, -, h⟩ := List.exists_of_findSome?_eq_some h
  dsimp only at h
  obtain ⟨r7, -, h⟩ := Option.bind_eq_some.mp h
  obtain ⟨⟨tbl, r8⟩, -, h⟩ := List.exists_of_findSome?_eq_some h
  dsimp only at h
  obtain ⟨r9, -, h⟩ := Option.bind_eq_some.mp h
  obtain ⟨⟨game, r10⟩, -, h⟩ := List.exists_of_findSome?_eq_some h
  dsimp only at h
  obtain ⟨r11, -, h⟩ := Option.bind_eq_some.mp h
  obtain ⟨⟨sb, r12⟩, -, h⟩ := List.exists_of_findSome?_eq_some h
  dsimp only at h
  obtain ⟨r13, -, h⟩ := Option.bind_eq_some.mp h
  obtain ⟨⟨bb, r14⟩, -, h⟩ := List.exists_of_findSome?_eq_some h
  dsimp only at h
  obtain ⟨r15, -, h⟩ := Option.bind_eq_some.mp h
  obtain ⟨⟨loc, r16⟩, -, h⟩ := List.exists_of_findSome?_eq_some h
  dsimp only at h
  obtain ⟨r17, -, h⟩ := Option.bind_eq_some.mp h
  obtain ⟨⟨date, r18⟩, -, h⟩ := List.exists_of_findSome?_eq_some h
  dsimp only at h
  obtain ⟨r19, -, h⟩ := Option.bind_eq_some.mp h
  split at h
  · injection h with h; subst h; rfl
  · exact Option.noConfusion h

/-- A successfully parsed header has limit `NL`, game type `TOUR` and the
absent tournament-level, buy-in, rake and currency fields. -/
theorem parseHeader_fields {host : Int} {seg : String} {hd : HeaderData}
    (h : parseHeader host seg = .ok hd) :
    hd.limit = "NL" ∧ hd.game_type = "TOUR" ∧ hd.tournament_level = none ∧
      hd.buyin = none ∧ hd.rake = none ∧ hd.currency = none := by
  unfold parseHeader at h
  obtain ⟨g, hg, h⟩ := ebind_ok h
  obtain ⟨sb, -, h⟩ := ebind_ok h
  obtain ⟨bb, -, h⟩ := ebind_ok h
  obtain ⟨d, -, h⟩ := ebind_ok h
  obtain ⟨gm, -, h⟩ := ebind_ok h
  injection h with h
  subst h
  exact ⟨headerMatch_limit (ofOption_ok hg), rfl, rfl, rfl, rfl, rfl⟩

/-- `list.index` fails on an element that is not present. -/
theorem pyListIndex_eq_none {l : List String} {x : String} (h : x ∉ l) :
    pyListIndex l x = none := by
  induction l with
  | nil => rfl
  | cons a l ih =>
    have hax : ¬(a = x) := fun he => h (he ▸ List.mem_cons_self a l)
    simp only [pyListIndex, if_neg hax,
      ih (fun hm => h (List.mem_cons_of_mem a hm)), Option.map_none']

/-- On a duplicate-free list, `list.index` returns the position of the
element. -/
theorem pyListIndex_of_nodup {l : List String} {x : String} {n : Nat}
    (hn : l.Nodup) (hg : l.get? n = some x) : pyListIndex l x = some n := by
  induction l generalizing n with
  | nil => exact Option.noConfusion hg
  | cons a l ih =>
    cases n with
    | zero =>
      injection hg with hg
      subst hg
      simp [pyListIndex]
    | succ n =>
      have hx : x ∈ l := List.get?_mem hg
      have hax : ¬(a = x) := by
        rintro rfl
        exact (List.nodup_cons.mp hn).1 hx
      simp only [pyListIndex, if_neg hax, ih (List.nodup_cons.mp hn).2 hg,
        Option.map_some']

/-- With duplicate-free keys, `OrderedDict` keeps the list unchanged. -/
theorem pyODictGo_nodup {l : List (String × Int)} {fuel : Nat}
    (hf : l.length ≤ fuel) (hn : (l.map Prod.fst).Nodup) : pyODictGo fuel l = l := by
  induction fuel generalizing l with
  | zero =>
    cases l with
    | nil => rfl
    | cons p ps => exact absurd hf (by simp)
  | succ fuel ih =>
    cases l with
    | nil => rfl
    | cons p ps =>
      simp only [List.map_cons, List.nodup_cons] at hn
      have h1 : ps.filter (fun q => q.1 = p.1) = [] := by
        rw [List.filter_eq_nil_iff]
        intro q hq
        simp only [decide_eq_true_eq]
        intro he
        exact hn.1 (he ▸ List.mem_map_of_mem Prod.fst hq)
      have h2 : ps.filter (fun q => ¬ q.1 = p.1) = ps := by
        rw [List.filter_eq_self]
        intro q hq
        simp only [decide_eq_true_eq]
        intro he
        exact hn.1 (he ▸ List.mem_map_of_mem Prod.fst hq)
      simp only [pyODictGo, h1, h2, List.foldl_nil]
      rw [ih (Nat.le_of_succ_le_succ (by simpa using hf)) hn.2]

/-- See `pyODictGo_nodup`. -/
theorem pyODict_nodup {l : List (String × Int)}
    (hn : (l.map Prod.fst).Nodup) : pyODict l = l :=
  pyODictGo_nodup (Nat.le_refl _) hn

/-- A street whose uppercase marker is absent from the split text is
recorded with all four fields absent, and this is not an error. -/
theorem parseStreet_absent (splitted : List String) (street : String)
    (h : pyUpper street ∉ splitted) :
    parseStreet splitted street = .ok ⟨none, none, none, none⟩ := by
  have hnone : pyIndexFrom splitted (pyUpper street) 0 = none := by
    unfold pyIndexFrom
    rw [List.drop_zero, pyListIndex_eq_none h, Option.map_none']
  simp only [parseStreet, hnone]

/-- A bind on an `Except.error` propagates the error. -/
theorem error_bind {α β : Type} (e : PyErr) (f : α → Except PyErr β) :
    (Except.error e >>= f : Except PyErr β) = .error e := rfl

/-- Hand text whose split contains FLOP and RIVER markers but no TURN
marker; every other part is well formed, so the whole parse succeeds. -/
def handC1 : String :=
  "Full Tilt Poker Game #1: T1 (2), Table 3 - NL Omaha Hi - 10/20 - 18:05:00 CET - [21:05:00 ET - 2013/07/01]\nSeat 1: Alice (1,500)\nSeat 2: Bob (3,000)\nThe button is in seat #1\n*** HOLE CARDS ***\nDealt to Alice [Ah Kd]\nBob raises to 40\n*** FLOP *** [Ah Kd Qs] (Total Pot: 100, 2 Players\nAlice checks\n*** RIVER *** [2c] (Total Pot: 100, 2 Players\nAlice checks\n*** SUMMARY ***\nTotal pot 100"

set_option maxRecDepth 8000

/-- C1 counterexample: `handC1` parses successfully with a fully absent
turn street (all four fields `None`) while its river street is present —
streets recorded absent do NOT form an unbroken suffix, because each
street's marker is looked up independently in the split text. -/
theorem C1_counterexample :
    (parseHand 0 handC1).toOption.map (fun h => (h.turn, h.river.cards))
      = some (⟨none, none, none, none⟩, some ["2c"]) := by decide

/-- C1 (amended): a street whose uppercase marker is absent from the split
hand text is recorded as fully absent; in particular a hand text with
neither a TURN nor a RIVER marker yields an absent turn street and an
absent river street.  Each street's marker is searched independently, so
an absent street does not force later streets to be absent. -/
theorem C1_amended (splitted : List String) (hT : "TURN" ∉ splitted) :
    parseStreet splitted "turn" = .ok ⟨none, none, none, none⟩ ∧
      ("RIVER" ∉ splitted → parseStreet splitted "river" = .ok ⟨none, none, none, none⟩) := by
  refine ⟨parseStreet_absent _ _ ?_, fun hR => parseStreet_absent _ _ ?_⟩
  · rw [show pyUpper "turn" = "TURN" from rfl]; exact hT
  · rw [show pyUpper "river" = "RIVER" from rfl]; exact hR

/-- C1 witness: the amended theorem applied to a concrete split text with
neither marker. -/
theorem C1_amended_witness :
    "TURN" ∉ (["x", "FLOP"] : List String) ∧
      (parseStreet ["x", "FLOP"] "turn" = .ok ⟨none, none, none, none⟩ ∧
        ("RIVER" ∉ (["x", "FLOP"] : List String) →
          parseStreet ["x", "FLOP"] "river" = .ok ⟨none, none, none, none⟩)) :=
  ⟨by decide, C1_amended ["x", "FLOP"] (by decide)⟩

/-- Hand text whose FLOP board line is immediately followed by the next
section boundary: the collected flop action sequence is empty. -/
def handC2 : String :=
  "Full Tilt Poker Game #4: T1 (2), Table 3 - NL Omaha Hi - 10/20 - 18:05:00 CET - [21:05:00 ET - 2013/07/01]\nSeat 1: Alice (1,500)\nSeat 2: Bob (3,000)\nThe button is in seat #1\n*** HOLE CARDS ***\nDealt to Alice [Ah Kd]\nBob folds\n*** FLOP *** [Ah Kd Qs] (Total Pot: 100, 2 Players\n*** SUMMARY ***\nTotal pot 100"

/-- C2 counterexample: in `handC2` the flop is reached (its board cards are
present) and its collected action sequence is empty, yet `flop_actions` is
stored as `None` — the very same absent value carried by the not-reached
turn street — because line 131 stores
`tuple(street_actions) if street_actions else None`. -/
theorem C2_counterexample :
    (parseHand 0 handC2).toOption.map
        (fun h => (h.flop.cards, h.flop.actions, h.turn.actions))
      = some (some ["Ah", "Kd", "Qs"], none, none) := by decide

/-- C2 (amended): when a street's marker is found, its board line parses
and the collected action sequence up to the next boundary is empty, the
street's actions are stored as the absent value `None` — identical to the
not-reached representation; only the cards, pot and player-count fields
record that the street was reached. -/
theorem C2_amended (splitted : List String) (street bl cardsS potS : String)
    (i np : Nat) (pot : PyDec)
    (hm : pyIndexFrom splitted (pyUpper street) 0 = some i)
    (hbl : splitted.get? (i + 1) = some bl)
    (hmatch : streetMatch bl = some (cardsS, potS, np))
    (hpot : pyDecimal potS = some pot)
    (hstop : pyIndexFrom splitted "" (i + 1 + 1) = some (i + 1 + 1)) :
    parseStreet splitted street = .ok ⟨some (pySplitWS cardsS), some pot, some np, none⟩ := by
  simp only [parseStreet, hm, hbl, hmatch, hpot, hstop]
  have hsl : pySlice splitted (i + 1 + 1) (i + 1 + 1) = [] := by
    unfold pySlice
    exact List.drop_eq_nil_of_le (List.length_take_le _ _)
  rw [hsl]
  rfl

/-- C2 witness: the amended theorem applied to a concrete split text whose
board line is immediately followed by a boundary. -/
theorem C2_amended_witness :
    (pyIndexFrom ["FLOP", "[Ah Kd] (Total Pot: 5, 2 Players", ""] (pyUpper "flop") 0 = some 0 ∧
     (["FLOP", "[Ah Kd] (Total Pot: 5, 2 Players", ""] : List String).get? 1
        = some "[Ah Kd] (Total Pot: 5, 2 Players" ∧
     streetMatch "[Ah Kd] (Total Pot: 5, 2 Players" = some ("Ah Kd", "5", 2) ∧
     pyDecimal "5" = some ⟨5, 0⟩ ∧
     pyIndexFrom ["FLOP", "[Ah Kd] (Total Pot: 5, 2 Players", ""] "" 2 = some 2) ∧
      parseStreet ["FLOP", "[Ah Kd] (Total Pot: 5, 2 Players", ""] "flop"
        = .ok ⟨some ["Ah", "Kd"], some ⟨5, 0⟩, some 2, none⟩ :=
  ⟨⟨by decide, by decide, by decide, by decide, by decide⟩,
   C2_amended ["FLOP", "[Ah Kd] (Total Pot: 5, 2 Players", ""] "flop"
     "[Ah Kd] (Total Pot: 5, 2 Players" "Ah Kd" "5" 0 2 ⟨5, 0⟩
     (by decide) (by decide) (by decide) (by decide) (by decide)⟩

/-- Hand text that declares seats 5, 3 and 1 in that order (the set of
declared seats is {1, 3, 5} with highest 5). -/
def handC3 : String :=
  "Full Tilt Poker Game #5: T1 (2), Table 3 - NL Omaha Hi - 10/20 - 18:05:00 CET - [21:05:00 ET - 2013/07/01]\nSeat 5: Carol (500)\nSeat 3: Bob (300)\nSeat 1: Alice (100)\nThe button is in seat #1\n*** HOLE CARDS ***\nDealt to Alice [Ah Kd]\nBob folds\n*** SUMMARY ***\nTotal pot 30"

/-- C3 counterexample: `handC3` declares exactly seats 1, 3 and 5 (highest
declared seat 5), parses successfully and does synthesize the Empty Seat 2
and Empty Seat 4 placeholders, but `max_players` is 1, not 5:
`_parse_seats` keeps the seat number of the LAST matched seat line, which
is the highest only when the seat lines appear in ascending order. -/
theorem C3_counterexample :
    (parseHand 0 handC3).toOption.map
        (fun h => (h.max_players, h.players.get? 1, h.players.get? 3))
      = some (1, some ("Empty Seat 2", 0), some ("Empty Seat 4", 0)) := by decide

/-- C3 (amended): when the seat block declares seats 1, 3 and 5 in
ascending order (the order hand histories emit), the undeclared seats 2
and 4 keep their synthesized `Empty Seat N` placeholders and the recorded
seat number is 5 — the last (hence highest) declared seat — not the
placeholder cap 9.  In general `max_players` is the seat number of the
last matched seat line. -/
theorem C3_amended (l1 l2 l3 b : String) (rest : List String)
    (n1 n3 n5 s1 s3 s5 : String) (v1 v3 v5 : Int)
    (h1 : seatMatch l1 = some (1, n1, s1)) (hv1 : stackVal s1 = some v1)
    (h3 : seatMatch l2 = some (3, n3, s3)) (hv3 : stackVal s3 = some v3)
    (h5 : seatMatch l3 = some (5, n5, s5)) (hv5 : stackVal s5 = some v5)
    (hb : seatMatch b = none) :
    seatsLoop (l1 :: l2 :: l3 :: b :: rest) initPlayers none =
      .ok ([(n1, v1), ("Empty Seat 2", 0), (n3, v3), ("Empty Seat 4", 0), (n5, v5),
            ("Empty Seat 6", 0), ("Empty Seat 7", 0), ("Empty Seat 8", 0),
            ("Empty Seat 9", 0)], some 5) := by
  simp only [seatsLoop, h1, hv1, h3, hv3, h5, hv5, hb, initPlayers]
  norm_num [pySet]
  rfl

/-- C3 witness: the amended theorem applied to concrete ascending seat
lines. -/
theorem C3_amended_witness :
    (seatMatch "Seat 1: A (100)" = some (1, "A", "100") ∧
     stackVal "100" = some 100 ∧
     seatMatch "Seat 3: B (300)" = some (3, "B", "300") ∧
     stackVal "300" = some 300 ∧
     seatMatch "Seat 5: C (500)" = some (5, "C", "500") ∧
     stackVal "500" = some 500 ∧
     seatMatch "The button is in seat #1" = none) ∧
      seatsLoop ["Seat 1: A (100)", "Seat 3: B (300)", "Seat 5: C (500)",
                 "The button is in seat #1"] initPlayers none =
        .ok ([("A", 100), ("Empty Seat 2", 0), ("B", 300), ("Empty Seat 4", 0), ("C", 500),
              ("Empty Seat 6", 0), ("Empty Seat 7", 0), ("Empty Seat 8", 0),
              ("Empty Seat 9", 0)], some 5) :=
  ⟨⟨by decide, by decide, by decide, by decide, by decide, by decide, by decide⟩,
   C3_amended "Seat 1: A (100)" "Seat 3: B (300)" "Seat 5: C (500)"
     "The button is in seat #1" [] "A" "B" "C" "100" "300" "500" 100 300 500
     (by decide) (by decide) (by decide) (by decide) (by decide) (by decide) (by decide)⟩

/-- C4: when a street's uppercase marker is present in the split text but
the immediately following line fails the board-line pattern,
`_parse_street` raises an error (AttributeError at `match.group(1)`,
uncaught by the `except ValueError`); the street is NOT recorded as
absent. -/
theorem C4_malformed_board (splitted : List String) (street bl : String) (i : Nat)
    (hm : pyIndexFrom splitted (pyUpper street) 0 = some i)
    (hbl : splitted.get? (i + 1) = some bl)
    (hfail : streetMatch bl = none) :
    parseStreet splitted street = .error .attributeError := by
  simp only [parseStreet, hm, hbl, hfail]

/-- C4 witness: a TURN marker followed by a malformed board line. -/
theorem C4_witness :
    (pyIndexFrom ["TURN", "garbage", ""] (pyUpper "turn") 0 = some 0 ∧
     (["TURN", "garbage", ""] : List String).get? 1 = some "garbage" ∧
     streetMatch "garbage" = none) ∧
      parseStreet ["TURN", "garbage", ""] "turn" = .error .attributeError :=
  ⟨⟨by decide, by decide, by decide⟩,
   C4_malformed_board ["TURN", "garbage", ""] "turn" "garbage" 0
     (by decide) (by decide) (by decide)⟩

/-- C5: a street whose uppercase marker is absent from the split hand text
does not make parsing fail: the street's cards, pot, player count and
actions are all recorded as the absent value (`_parse_street` catches the
ValueError of `.index`), and the result is a normal success. -/
theorem C5_street_not_reached (splitted : List String) (street : String)
    (h : pyUpper street ∉ splitted) :
    parseStreet splitted street = .ok ⟨none, none, none, none⟩ :=
  parseStreet_absent splitted street h

/-- C5 witness: a split text without the RIVER marker. -/
theorem C5_witness :
    pyUpper "river" ∉ (["a", "FLOP", "b"] : List String) ∧
      parseStreet ["a", "FLOP", "b"] "river" = .ok ⟨none, none, none, none⟩ :=
  ⟨by decide, C5_street_not_reached ["a", "FLOP", "b"] "river" (by decide)⟩

/-- C6: the header timestamp is interpreted in the room's fixed Eastern
timezone and converted to one exact UTC instant.  First conjunct: the
header parse never consults the host system's local timezone (modelled as
the ignored `host` argument), so the stored instant is the same on every
host.  Second conjunct: the spec's example stamp
`21:05:00 ET - 2013/07/01` is 21:05:00 EDT (UTC-4), i.e. the single exact
UTC instant 2013-07-02 01:05:00 = 1372727100 seconds since the epoch. -/
theorem C6_timezone_utc :
    (∀ host host2 : Int, ∀ seg : String, parseHeader host seg = parseHeader host2 seg) ∧
      dateToUTC "21:05:00 ET - 2013/07/01" = some 1372727100 :=
  ⟨fun _ _ _ => rfl, by decide⟩

/-- C7: a header whose blind group strings are `"10"` and `"20"` is stored
with the exact decimal values 10 and 20 — `Decimal("10")` is the exact
decimal `⟨10, 0⟩` whose rational value is exactly 10, never a
floating-point approximation. -/
theorem C7_exact_blinds (host : Int) (seg : String) (g : HeaderGroups) (hd : HeaderData)
    (hm : headerMatch seg = some g) (hsb : g.sb = "10") (hbb : g.bb = "20")
    (hp : parseHeader host seg = .ok hd) :
    hd.sb = ⟨10, 0⟩ ∧ hd.bb = ⟨20, 0⟩ ∧ hd.sb.val = 10 ∧ hd.bb.val = 20 := by
  unfold parseHeader at hp
  obtain ⟨g2, hg2, hp⟩ := ebind_ok hp
  have hgg : g2 = g := by
    have := ofOption_ok hg2
    rw [hm] at this
    injection this with this
    rw [this]
  subst hgg
  obtain ⟨sb, hsb2, hp⟩ := ebind_ok hp
  obtain ⟨bb, hbb2, hp⟩ := ebind_ok hp
  obtain ⟨d, -, hp⟩ := ebind_ok hp
  obtain ⟨gm, -, hp⟩ := ebind_ok hp
  injection hp with hp
  subst hp
  have esb : sb = ⟨10, 0⟩ := by
    have h10 := ofOption_ok hsb2
    rw [hsb] at h10
    have : pyDecimal "10" = some ⟨10, 0⟩ := by decide
    rw [this] at h10
    injection h10 with h10
    rw [h10]
  have ebb : bb = ⟨20, 0⟩ := by
    have h20 := ofOption_ok hbb2
    rw [hbb] at h20
    have : pyDecimal "20" = some ⟨20, 0⟩ := by decide
    rw [this] at h20
    injection h20 with h20
    rw [h20]
  subst esb
  subst ebb
  refine ⟨rfl, rfl, by norm_num [PyDec.val], by norm_num [PyDec.val]⟩

/-- Concrete header line with blinds 10/20 for the C7 witness. -/
def hdrC7 : String :=
  "Full Tilt Poker Game #1: T1 (2), Table 3 - NL Omaha Hi - 10/20 - 18:05:00 CET - [21:05:00 ET - 2013/07/01]"

/-- C7 witness: the theorem applied to a concrete matching header. -/
theorem C7_witness :
    (headerMatch hdrC7
        = some ⟨"1", "T1", "2", "3", "NL", "Omaha Hi", "10", "20", "21:05:00 ET - 2013/07/01"⟩ ∧
     parseHeader 0 hdrC7
        = .ok ⟨⟨10, 0⟩, ⟨20, 0⟩, 1372727100, "OMAHA", "NL", "1", "2", "T1", "3", "TOUR",
               none, none, none, none⟩) ∧
      ((⟨⟨10, 0⟩, ⟨20, 0⟩, 1372727100, "OMAHA", "NL", "1", "2", "T1", "3", "TOUR",
         none, none, none, none⟩ : HeaderData).sb = ⟨10, 0⟩ ∧
       (⟨⟨10, 0⟩, ⟨20, 0⟩, 1372727100, "OMAHA", "NL", "1", "2", "T1", "3", "TOUR",
         none, none, none, none⟩ : HeaderData).bb = ⟨20, 0⟩ ∧
       (⟨⟨10, 0⟩, ⟨20, 0⟩, 1372727100, "OMAHA", "NL", "1", "2", "T1", "3", "TOUR",
         none, none, none, none⟩ : HeaderData).sb.val = 10 ∧
       (⟨⟨10, 0⟩, ⟨20, 0⟩, 1372727100, "OMAHA", "NL", "1", "2", "T1", "3", "TOUR",
         none, none, none, none⟩ : HeaderData).bb.val = 20) :=
  ⟨⟨by decide, by decide⟩,
   C7_exact_blinds 0 hdrC7
     ⟨"1", "T1", "2", "3", "NL", "Omaha Hi", "10", "20", "21:05:00 ET - 2013/07/01"⟩
     ⟨⟨10, 0⟩, ⟨20, 0⟩, 1372727100, "OMAHA", "NL", "1", "2", "T1", "3", "TOUR",
      none, none, none, none⟩
     (by decide) rfl rfl (by decide)⟩

/-- C8: when the fragment two after the first section boundary is
`Dealt to Alice [Ah Kd]` and the seat mapping has duplicate-free names
with Alice in seat 3 (position 2), hole-card extraction yields hero
`Alice`, hero seat 3 (ordered lookup of the name in the seat mapping's key
list, plus one) and the hole cards `("Ah", "Kd")`. -/
theorem C8_hole_cards (splitted : List String) (sections : List Nat)
    (ps : List (String × Int)) (s0 : Nat)
    (hs0 : pyIdx sections 0 = .ok s0)
    (hline : pyIdx splitted ((s0 : Int) + 2) = .ok "Dealt to Alice [Ah Kd]")
    (hnd : (ps.map Prod.fst).Nodup)
    (ha : (ps.map Prod.fst).get? 2 = some "Alice") :
    parseHoleCards splitted sections ps = .ok ("Alice", 3, "Ah", "Kd") := by
  have hmatch : holeMatch "Dealt to Alice [Ah Kd]" = some ("Alice", "Ah", "Kd") := by decide
  have hkeys : (pyODict ps).map Prod.fst = ps.map Prod.fst := by rw [pyODict_nodup hnd]
  have hidx : pyListIndex ((pyODict ps).map Prod.fst) "Alice" = some 2 := by
    rw [hkeys]
    exact pyListIndex_of_nodup hnd ha
  simp only [parseHoleCards, hs0, hline, hmatch, hidx, ok_bind, ofOption]

/-- C8 witness: the theorem applied to concrete fragments and seats. -/
theorem C8_witness :
    (pyIdx [0] 0 = .ok 0 ∧
     pyIdx ["x", "y", "Dealt to Alice [Ah Kd]"] ((0 : Int) + 2)
        = .ok "Dealt to Alice [Ah Kd]" ∧
     ((([("Bob", 100), ("Carol", 200), ("Alice", 300)] : List (String × Int)).map
        Prod.fst).Nodup) ∧
     (([("Bob", 100), ("Carol", 200), ("Alice", 300)] : List (String × Int)).map
        Prod.fst).get? 2 = some "Alice") ∧
      parseHoleCards ["x", "y", "Dealt to Alice [Ah Kd]"] [0]
          [("Bob", 100), ("Carol", 200), ("Alice", 300)]
        = .ok ("Alice", 3, "Ah", "Kd") :=
  ⟨⟨by decide, by decide, by decide, by decide⟩,
   C8_hole_cards ["x", "y", "Dealt to Alice [Ah Kd]"] [0]
     [("Bob", 100), ("Carol", 200), ("Alice", 300)] 0
     (by decide) (by decide) (by decide) (by decide)⟩

/-- C9: every successfully parsed hand has limit `NL` and game type
`TOUR`, with `tournament_level`, `buyin`, `rake` and `currency` all the
absent value; moreover no header whose limit token is not the literal `NL`
can match the header pattern — every successful header match captures
limit `NL`. -/
theorem C9_fixed_fields (host : Int) (raw : String) (h : Hand)
    (hp : parseHand host raw = .ok h) :
    h.limit = "NL" ∧ h.game_type = "TOUR" ∧ h.tournament_level = none ∧
      h.buyin = none ∧ h.rake = none ∧ h.currency = none ∧
      (∀ seg : String, ∀ g : HeaderGroups, headerMatch seg = some g → g.limit = "NL") := by
  have hlast : ∀ seg : String, ∀ g : HeaderGroups, headerMatch seg = some g → g.limit = "NL" :=
    fun _ _ hg => headerMatch_limit hg
  simp only [parseHand] at hp
  obtain ⟨seg0, -, hp⟩ := ebind_ok hp
  obtain ⟨hd, hhd, hp⟩ := ebind_ok hp
  obtain ⟨⟨ps, mp, bseat, btn⟩, -, hp⟩ := ebind_ok hp
  dsimp only at hp
  obtain ⟨⟨hero, hseat, c1, c2⟩, -, hp⟩ := ebind_ok hp
  dsimp only at hp
  obtain ⟨preflop, -, hp⟩ := ebind_ok hp
  obtain ⟨flop, -, hp⟩ := ebind_ok hp
  obtain ⟨turn, -, hp⟩ := ebind_ok hp
  obtain ⟨river, -, hp⟩ := ebind_ok hp
  injection hp with hp
  subst hp
  obtain ⟨h1, h2, h3, h4, h5, h6⟩ := parseHeader_fields hhd
  exact ⟨h1, h2, h3, h4, h5, h6, hlast⟩

/-- Concrete well-formed hand text for the C9 witness. -/
def handC9 : String :=
  "Full Tilt Poker Game #9: T1 (2), Table 3 - NL Omaha Hi - 10/20 - 18:05:00 CET - [21:05:00 ET - 2013/07/01]\nSeat 1: Alice (1,500)\nSeat 2: Bob (3,000)\nThe button is in seat #1\n*** HOLE CARDS ***\nDealt to Alice [Ah Kd]\nBob raises to 40\n*** FLOP *** [Ah Kd Qs] (Total Pot: 100, 2 Players\nAlice checks\n*** SUMMARY ***\nTotal pot 100"

/-- The parsed result of `handC9`, named for the witness. -/
def handC9res : Hand := (parseHand 0 handC9).toOption.getD default

/-- C9 witness: the theorem applied to a concrete successful parse. -/
theorem C9_witness :
    parseHand 0 handC9 = .ok handC9res ∧
      (handC9res.limit = "NL" ∧ handC9res.game_type = "TOUR" ∧
       handC9res.tournament_level = none ∧ handC9res.buyin = none ∧
       handC9res.rake = none ∧ handC9res.currency = none ∧
       (∀ seg : String, ∀ g : HeaderGroups, headerMatch seg = some g → g.limit = "NL")) :=
  ⟨rfl, C9_fixed_fields 0 handC9 handC9res rfl⟩

/-- C10: when the first fragment after segment 0 does not match the seat
pattern, the seat loop breaks without ever assigning `seat_number`, and
`self.max_players = seat_number` (ftp.py line 105) reads the unassigned
local — an UnboundLocalError.  Seat extraction therefore requires a
non-empty seat block. -/
theorem C10_unbound_seat (splitted : List String) (sections : List Nat)
    (frag0 l : String) (rest : List String)
    (hsplit : splitted = frag0 :: l :: rest)
    (hfail : seatMatch l = none) :
    parseSeats splitted sections = .error .unboundLocal := by
  subst hsplit
  simp only [parseSeats, List.drop_succ_cons, List.drop_zero, seatsLoop, hfail,
    ok_bind, ofOption, error_bind]

/-- C10 witness: a hand whose fragment after the header is not a seat
line. -/
theorem C10_witness :
    seatMatch "not a seat line" = none ∧
      parseSeats ["hdr", "not a seat line"] [] = .error .unboundLocal :=
  ⟨by decide,
   C10_unbound_seat ["hdr", "not a seat line"] [] "hdr" "not a seat line" [] rfl (by decide)⟩
